import Mathlib

/-!
Shallow embedding of the QUIC loss-detection and RTT-estimation core
(`iocore/net/quic/QUICLossDetector.cc`): the `QUICRTTMeasure` sample
smoother and the `QUICLossDetector` state machine (sent-packet tables,
ACK processing, loss detection, timer arming), together with theorems
checking the natural-language specification against this embedding.

Conventions of the embedding:
* `ink_hrtime` (signed 64-bit nanoseconds) is modelled as `ℤ`;
* `QUICPacketNumber` (`uint64_t`) is modelled as `ℕ`, with the wrapping
  subtractions the C++ code performs made explicit through `wsub64`;
* C++ `double` arithmetic (the RTT smoothing fractions and the
  `time_threshold` multiplier) is modelled as exact `ℚ` arithmetic whose
  results are truncated toward zero (`ratTrunc`) when stored back into an
  integer field, mirroring the C++ `double → int64_t` conversion;
* external collaborators (congestion controller, frame generators,
  pinger/padder, context callbacks) are modelled as an emitted `Event`
  list; the scheduler clock and the key-availability oracle are an
  explicit `LDEnv` argument.
-/

namespace QUICLD

/-- 2^64, the modulus of `uint64_t` arithmetic. -/
def U64 : Nat := 18446744073709551616

/-- Wrapping `uint64_t` subtraction `x - y` (two's-complement wraparound),
as performed by the C++ code on `QUICPacketNumber` values. -/
def wsub64 (x y : Nat) : Nat :=
  (x % U64 + (U64 - y % U64)) % U64

/-- Truncation of a rational toward zero, the semantics of the C++
conversion from `double` to `int64_t`. -/
def ratTrunc (q : ℚ) : ℤ :=
  Int.tdiv q.num (q.den : ℤ)

/-- Reinterpretation of a `uint64_t` bit pattern as a signed `int64_t`
(two's complement), used where the C++ code converts unsigned
microsecond values into `ink_hrtime`. -/
def toInt64 (n : Nat) : ℤ :=
  if n % U64 < U64 / 2 then (n % U64 : ℤ) else (n % U64 : ℤ) - (U64 : ℤ)

/-- The three packet-number spaces (`QUICPacketNumberSpace`). -/
inductive QUICPacketNumberSpace where
  | Initial
  | Handshake
  | ApplicationData
deriving DecidableEq

/-- A triple of per-space values, indexed by `QUICPacketNumberSpace`
(the C++ code uses arrays of size `kPacketNumberSpace = 3`). -/
structure PerSpace (α : Type) where
  initial : α
  handshake : α
  applicationData : α
deriving DecidableEq

/-- Read the component of a `PerSpace` triple for a given space. -/
def PerSpace.get (p : PerSpace α) : QUICPacketNumberSpace → α
  | .Initial => p.initial
  | .Handshake => p.handshake
  | .ApplicationData => p.applicationData

/-- Replace the component of a `PerSpace` triple for a given space. -/
def PerSpace.set (p : PerSpace α) : QUICPacketNumberSpace → α → PerSpace α
  | .Initial, v => { p with initial := v }
  | .Handshake, v => { p with handshake := v }
  | .ApplicationData, v => { p with applicationData := v }

/-!
## QUICRTTMeasure
-/

/-- State of `QUICRTTMeasure`: RTT samples and derived statistics (all in
nanoseconds), exponential-backoff counters and the configuration
constants. -/
structure QUICRTTMeasureState where
  latest_rtt : ℤ
  smoothed_rtt : ℤ
  rttvar : ℤ
  min_rtt : ℤ
  max_ack_delay : ℤ
  crypto_count : Nat
  pto_count : Nat
  k_granularity : ℤ
  k_initial_rtt : ℤ
deriving DecidableEq

/-- `QUICRTTMeasure::update_rtt`: record the latest sample; on the first
sample (`smoothed_rtt == 0`) initialise the statistics, otherwise update
`min_rtt`, clamp the ack delay, adjust the sample for a plausible delay
and apply the RFC 6298 smoothing (in `double`, truncated on store). -/
def update_rtt (st : QUICRTTMeasureState) (latest_rtt ack_delay : ℤ) : QUICRTTMeasureState :=
  let st := { st with latest_rtt := latest_rtt }
  if st.smoothed_rtt = 0 then
    { st with
      min_rtt := 0
      smoothed_rtt := st.latest_rtt
      rttvar := Int.tdiv st.latest_rtt 2 }
  else
    let min_rtt := min st.min_rtt latest_rtt
    let ack_delay := min ack_delay st.max_ack_delay
    let adjusted_rtt := if st.latest_rtt > min_rtt + ack_delay
      then st.latest_rtt - ack_delay else st.latest_rtt
    { st with
      min_rtt := min_rtt
      rttvar := ratTrunc ((3 : ℚ) / 4 * (st.rttvar : ℚ)
        + (1 : ℚ) / 4 * ((|st.smoothed_rtt - adjusted_rtt|: ℤ) : ℚ))
      smoothed_rtt := ratTrunc ((7 : ℚ) / 8 * (st.smoothed_rtt : ℚ)
        + (1 : ℚ) / 8 * (adjusted_rtt : ℚ)) }

/-- `QUICRTTMeasure::current_pto_period`:
`max(smoothed + 4·rttvar + max_ack_delay, granularity) · 2^pto_count`. -/
def current_pto_period (st : QUICRTTMeasureState) : ℤ :=
  let d := st.smoothed_rtt + 4 * st.rttvar + st.max_ack_delay
  (max d st.k_granularity) * 2 ^ st.pto_count

/-- `QUICRTTMeasure::handshake_retransmit_timeout`: doubled smoothed RTT
(or doubled initial RTT before a sample), floored by the granularity and
scaled by `2^crypto_count`. -/
def handshake_retransmit_timeout (st : QUICRTTMeasureState) : ℤ :=
  let t := if st.smoothed_rtt = 0 then 2 * st.k_initial_rtt else 2 * st.smoothed_rtt
  (max t st.k_granularity) * 2 ^ st.crypto_count

/-- `QUICRTTMeasure::reset`: zero the samples and the backoff counters,
keeping the configuration constants. -/
def rttReset (st : QUICRTTMeasureState) : QUICRTTMeasureState :=
  { st with
    crypto_count := 0
    pto_count := 0
    smoothed_rtt := 0
    rttvar := 0
    min_rtt := 0
    latest_rtt := 0 }

/-- Spec-side restatement of §4.1 `update_rtt`, written following the
specification's numbered steps: first call initialises
`smoothed = latest`, `rttvar = latest/2`, `min_rtt = 0`; later calls take
`min_rtt ← min(min_rtt, latest)`, clamp the delay by `max_ack_delay`,
subtract it only when `latest > min_rtt + ack_delay`, and apply the
`3/4 / 1/4` and `7/8 / 1/8` smoothing with truncation to integer
nanoseconds. -/
def specUpdateRtt (st : QUICRTTMeasureState) (latest ack_delay : ℤ) : QUICRTTMeasureState :=
  if st.smoothed_rtt = 0 then
    { st with
      latest_rtt := latest
      smoothed_rtt := latest
      rttvar := Int.tdiv latest 2
      min_rtt := 0 }
  else
    let m := min st.min_rtt latest
    let d := min ack_delay st.max_ack_delay
    let adjusted := if latest > m + d then latest - d else latest
    { st with
      latest_rtt := latest
      min_rtt := m
      rttvar := ratTrunc ((3 : ℚ) / 4 * (st.rttvar : ℚ)
        + (1 : ℚ) / 4 * ((|st.smoothed_rtt - adjusted|: ℤ) : ℚ))
      smoothed_rtt := ratTrunc ((7 : ℚ) / 8 * (st.smoothed_rtt : ℚ)
        + (1 : ℚ) / 8 * (adjusted : ℚ)) }

/-!
## Loss-delay computation and earliest loss time
-/

/-- The loss delay computed at the head of
`QUICLossDetector::_detect_lost_packets` (source lines 398–399): the
`time_threshold` multiplier (a `double`) times the larger of the latest
and smoothed RTT, truncated to `ink_hrtime`, then capped by
`min` with the granularity. -/
def lossDelay (th : ℚ) (latest smoothed granularity : ℤ) : ℤ :=
  min (ratTrunc (th * ((max latest smoothed : ℤ) : ℚ))) granularity

/-- Spec-side restatement of §4.3.2:
`loss_delay = time_threshold · max(latest_rtt, smoothed_rtt)`, then
`min(loss_delay, k_granularity)`. -/
def specLossDelay (th : ℚ) (latest smoothed granularity : ℤ) : ℤ :=
  let d := ratTrunc (th * ((max latest smoothed : ℤ) : ℚ))
  min d granularity

/-- The packet-number loss cutoff of `_detect_lost_packets` (source line
407): `largest_acked_packet[space] - k_packet_threshold` in wrapping
`uint64_t` arithmetic. -/
def lostPnOf (largest threshold : Nat) : Nat :=
  wsub64 largest threshold

/-- `QUICLossDetector::_get_earliest_loss_time`: scan the three
`loss_time` values starting from `Initial`, taking a later space's value
whenever it is non-zero and `(time != 0 || loss_time[i] < time)` holds —
a verbatim transcription of the source condition. -/
def get_earliest_loss_time (lt : PerSpace ℤ) : ℤ × QUICPacketNumberSpace :=
  let step := fun (acc : ℤ × QUICPacketNumberSpace) (i : QUICPacketNumberSpace) =>
    if lt.get i ≠ 0 ∧ (acc.1 ≠ 0 ∨ lt.get i < acc.1) then (lt.get i, i) else acc
  step (step (lt.get .Initial, .Initial) .Handshake) .ApplicationData


/-!
## Data model of the LossDetector
-/

/-- The packet types the detector distinguishes: `VERSION_NEGOTIATION`
packets are never tracked, every other type is passed through opaquely. -/
inductive QUICPacketType where
  | VERSION_NEGOTIATION
  | INITIAL
  | HANDSHAKE
  | PROTECTED
deriving DecidableEq

/-- Encryption levels used by the probe-dispatch helpers. -/
inductive QUICEncryptionLevel where
  | initialLevel
  | handshakeLevel
  | oneRtt
deriving DecidableEq

/-- `QUICPacketInfo`: descriptor of a locally sent packet.  `frames`
holds, per frame, the frame id together with `none` when the generator
back-reference is absent. -/
structure QUICPacketInfo where
  packet_number : Nat
  time_sent : ℤ
  ack_eliciting : Bool
  is_crypto_packet : Bool
  in_flight : Bool
  sent_bytes : Nat
  ptype : QUICPacketType
  pn_space : QUICPacketNumberSpace
  frames : List (Option Nat)
deriving DecidableEq

/-- A pre-parsed ACK frame: `largest_acknowledged`, the raw `ack_delay`
field, `first_ack_block`, the extra `(gap, length)` blocks and whether an
ECN section is attached. -/
structure QUICAckFrame where
  largest_acknowledged : Nat
  ack_delay : Nat
  first_ack_block : Nat
  ack_blocks : List (Nat × Nat)
  has_ecn : Bool
deriving DecidableEq

/-- Modelled from the spec: `QUICAckFrame::PacketNumberRange` (declared
in a header outside the provided sources) is an inclusive range
`[last, first]` of packet numbers; `contains` tests inclusive
membership at both endpoints (§4.2: "a set of inclusive packet-number
ranges, each `[hi, lo]` with `hi ≥ lo`"). -/
structure PacketNumberRange where
  first : Nat
  last : Nat
deriving DecidableEq

/-- Inclusive membership in a `PacketNumberRange`. -/
def PacketNumberRange.containsPn (r : PacketNumberRange) (pn : Nat) : Bool :=
  decide (r.last ≤ pn) && decide (pn ≤ r.first)

/-- Calls the detector makes into its collaborators (congestion
controller `_cc`, context callbacks, frame generators, pinger and
padder), recorded as an event trace. -/
inductive Event where
  | ccOnPacketSent (bytes : Nat)
  | ccOnPacketAcked (pn : Nat)
  | ccProcessEcn (pn : Nat)
  | ccOnPacketsLost (pns : List Nat)
  | ccAddExtraCredit
  | frameAcked (id : Nat)
  | frameLost (id : Nat)
  | triggerPacketLost (pn : Nat)
  | pingerRequest (level : QUICEncryptionLevel)
  | padderRequest (level : QUICEncryptionLevel)
deriving DecidableEq

/-- External inputs the detector reads while processing: the scheduler
clock (`Thread::get_hrtime()`), and the connection-direction /
key-availability oracles behind `_is_client_without_one_rtt_key` and
`is_encryption_key_available(HANDSHAKE)`. -/
structure LDEnv where
  now : ℤ
  client_without_one_rtt_key : Bool
  handshake_key_available : Bool
deriving DecidableEq

/-- Full state of a `QUICLossDetector` (together with its owned
`QUICRTTMeasure`): the per-space sent-packet tables and detector state,
the shared outstanding counters, the timer bookkeeping and the
configuration constants. -/
structure LDState where
  largest_acked_packet : PerSpace Nat
  loss_time : PerSpace ℤ
  sent_packets : PerSpace (List (Nat × QUICPacketInfo))
  ack_eliciting_outstanding : Nat
  crypto_outstanding : Nat
  time_of_last_sent_ack_eliciting_packet : ℤ
  time_of_last_sent_crypto_packet : ℤ
  loss_detection_alarm_at : ℤ
  timer_scheduled : Bool
  ack_delay_exponent : Nat
  k_packet_threshold : Nat
  k_time_threshold : ℚ
  rtt : QUICRTTMeasureState
deriving DecidableEq

/-!
## Sent-packet table (`std::map<QUICPacketNumber, QUICPacketInfoUPtr>`)

The per-space table is an association list sorted by packet number.
`tblInsert` mirrors `std::map::insert`, which leaves the map unchanged
when the key is already present; `tblFind` and `tblErase` mirror `find`
and `erase`.
-/

/-- Lookup in a sent-packet table (`std::map::find`). -/
def tblFind (pn : Nat) : List (Nat × QUICPacketInfo) → Option QUICPacketInfo
  | [] => none
  | e :: t => if e.1 = pn then some e.2 else tblFind pn t

/-- Erase one entry from a sent-packet table (`std::map::erase`); a
missing key is a no-op. -/
def tblErase (pn : Nat) : List (Nat × QUICPacketInfo) → List (Nat × QUICPacketInfo)
  | [] => []
  | e :: t => if e.1 = pn then t else e :: tblErase pn t

/-- Sorted insertion into a sent-packet table (`std::map::insert`): keeps
the existing entry when the key is already present. -/
def tblInsert (pn : Nat) (info : QUICPacketInfo) :
    List (Nat × QUICPacketInfo) → List (Nat × QUICPacketInfo)
  | [] => [(pn, info)]
  | e :: t =>
    if pn < e.1 then (pn, info) :: e :: t
    else if pn = e.1 then e :: t
    else e :: tblInsert pn info t

/-!
## LossDetector operations
-/

/-- `QUICLossDetector::_include_ack_eliciting`: whether any of the
acked descriptors is ack-eliciting. -/
def include_ack_eliciting (acked_packets : List QUICPacketInfo) : Bool :=
  acked_packets.any (fun p => p.ack_eliciting)

/-- The ACK-delay conversion of `_on_ack_received` line 225:
`HRTIME_USECONDS(ack_frame.ack_delay() << ack_delay_exponent)`, i.e. the
raw microsecond field shifted by the peer's exponent (in wrapping
`uint64_t`) and scaled to nanoseconds, reinterpreted as `ink_hrtime`. -/
def ackDelayToHrtime (raw : Nat) (exponent : Nat) : ℤ :=
  toInt64 ((raw <<< exponent) % U64 * 1000)

/-- The range-expansion loop of `_determine_newly_acked_packets`
(source lines 544–552), with the `uint64_t` subtractions wrapping.  The
`std::set` of ranges is modelled as the list of ranges in insertion
order (the comparator lives in a header outside the provided sources;
no claim depends on the iteration order of the ranges). -/
def expandAckRanges (frame : QUICAckFrame) : List PacketNumberRange :=
  let x0 := frame.largest_acknowledged % U64
  let r0 : PacketNumberRange := ⟨x0, wsub64 x0 frame.first_ack_block⟩
  let step := fun (acc : List PacketNumberRange × Nat) (b : Nat × Nat) =>
    let x := wsub64 acc.2 (b.1 + 1)
    let r : PacketNumberRange := ⟨x, wsub64 x b.2⟩
    (acc.1 ++ [r], wsub64 x (b.2 + 1))
  (frame.ack_blocks.foldl step ([r0], wsub64 x0 (frame.first_ack_block + 1))).1

/-- `QUICLossDetector::_determine_newly_acked_packets`: expand the ACK
frame into ranges, then for each range collect the tracked descriptors
it contains, scanning the table in reverse order. -/
def determine_newly_acked_packets (tbl : List (Nat × QUICPacketInfo))
    (frame : QUICAckFrame) : List QUICPacketInfo :=
  (expandAckRanges frame).foldl
    (fun acc r =>
      acc ++ tbl.reverse.filterMap
        (fun e => if r.containsPn e.1 then some e.2 else none)) []

/-- `QUICLossDetector::_decrement_outstanding_counters`: when the
iterator is valid, decrement each shared counter whose flag the found
descriptor carries. -/
def decrement_outstanding_counters (st : LDState) :
    Option QUICPacketInfo → LDState
  | none => st
  | some info =>
    let st := if info.is_crypto_packet
      then { st with crypto_outstanding := st.crypto_outstanding - 1 } else st
    if info.ack_eliciting
      then { st with ack_eliciting_outstanding := st.ack_eliciting_outstanding - 1 } else st

/-- `QUICLossDetector::_remove_from_sent_packet_list`: find the entry,
decrement the counters for it, then erase it from the table. -/
def remove_from_sent_packet_list (st : LDState) (pn : Nat)
    (space : QUICPacketNumberSpace) : LDState :=
  let found := tblFind pn (st.sent_packets.get space)
  let st := decrement_outstanding_counters st found
  { st with sent_packets := st.sent_packets.set space (tblErase pn (st.sent_packets.get space)) }

/-- `QUICLossDetector::_add_to_sent_packet_list`: insert the descriptor
into its space's table, then look the key up again and increment the
counters according to the flags of the entry found. -/
def add_to_sent_packet_list (st : LDState) (info : QUICPacketInfo) : LDState :=
  let tbl := tblInsert info.packet_number info (st.sent_packets.get info.pn_space)
  let st := { st with sent_packets := st.sent_packets.set info.pn_space tbl }
  match tblFind info.packet_number tbl with
  | none => st
  | some found =>
    let st := if found.is_crypto_packet
      then { st with crypto_outstanding := st.crypto_outstanding + 1 } else st
    if found.ack_eliciting
      then { st with ack_eliciting_outstanding := st.ack_eliciting_outstanding + 1 } else st

/-- `QUICLossDetector::_retransmit_lost_packet`: invoke `on_frame_lost`
on every frame whose generator reference is live. -/
def retransmitLostPacketEvents (info : QUICPacketInfo) : List Event :=
  (info.frames.filterMap id).map Event.frameLost

/-- `QUICLossDetector::_on_packet_acked`: notify the congestion
controller when the packet was in flight, fire `on_frame_acked` for
every live frame generator, then remove the descriptor from its
space's table. -/
def on_packet_acked (st : LDState) (info : QUICPacketInfo) : LDState × List Event :=
  let evs := (if info.in_flight then [Event.ccOnPacketAcked info.packet_number] else [])
    ++ (info.frames.filterMap id).map Event.frameAcked
  (remove_from_sent_packet_list st info.packet_number info.pn_space, evs)

/-- The step function of the newly-acked loop of `_on_ack_received`
(source lines 239–241): ack one descriptor, accumulating events. -/
def ackedStep (acc : LDState × List Event) (info : QUICPacketInfo) :
    LDState × List Event :=
  let r := on_packet_acked acc.1 info
  (r.1, acc.2 ++ r.2)

/-- `QUICLossDetector::_set_loss_detection_timer`: time-threshold mode
when some `loss_time` is selected, else the crypto-retransmission mode,
else disarm when nothing ack-eliciting is outstanding, else PTO mode.
`update_timer` stores the alarm and schedules the recurring tick if it
is not yet running. -/
def set_loss_detection_timer (env : LDEnv) (st : LDState) : LDState :=
  let res := get_earliest_loss_time st.loss_time
  if res.1 ≠ 0 then
    { st with loss_detection_alarm_at := res.1, timer_scheduled := true }
  else if st.crypto_outstanding ≠ 0 ∨ env.client_without_one_rtt_key = true then
    { st with
      loss_detection_alarm_at :=
        st.time_of_last_sent_crypto_packet + handshake_retransmit_timeout st.rtt
      timer_scheduled := true }
  else if st.ack_eliciting_outstanding = 0 then
    if st.timer_scheduled then
      { st with loss_detection_alarm_at := 0, timer_scheduled := false }
    else st
  else
    { st with
      loss_detection_alarm_at :=
        st.time_of_last_sent_ack_eliciting_packet + current_pto_period st.rtt
      timer_scheduled := true }

/-- The scan loop of `_detect_lost_packets` (source lines 409–440):
walk the table in ascending packet-number order, stopping at the first
key above `largest_acked`; classify each earlier entry as lost (by send
time or by packet number) or fold its `time_sent + loss_delay` into the
space's loss time.  Returns the final loss time and the lost in-flight
entries in scan order. -/
def detectScan (largest : Nat) (lostSendTime : ℤ) (lostPn : Nat) (delay : ℤ) :
    List (Nat × QUICPacketInfo) → ℤ → ℤ × List (Nat × QUICPacketInfo)
  | [], lossTime => (lossTime, [])
  | e :: rest, lossTime =>
    if largest < e.1 then (lossTime, [])
    else if e.2.time_sent < lostSendTime ∨ e.1 < lostPn then
      let r := detectScan largest lostSendTime lostPn delay rest lossTime
      (r.1, if e.2.in_flight then (e.1, e.2) :: r.2 else r.2)
    else if lossTime = 0 then
      detectScan largest lostSendTime lostPn delay rest (e.2.time_sent + delay)
    else
      detectScan largest lostSendTime lostPn delay rest
        (min lossTime (e.2.time_sent + delay))

/-- The per-lost-packet step of `_detect_lost_packets` (source lines
446–457): fire the `PACKET_LOST` context callback, retransmit the lost
frames, then remove the descriptor from the table. -/
def lostRemoveStep (space : QUICPacketNumberSpace) (acc : LDState × List Event)
    (e : Nat × QUICPacketInfo) : LDState × List Event :=
  (remove_from_sent_packet_list acc.1 e.1 space,
    acc.2 ++ [Event.triggerPacketLost e.1] ++ retransmitLostPacketEvents e.2)

/-- `QUICLossDetector::_detect_lost_packets`: reset the space's loss
time, compute the loss delay and the two cutoffs, scan the table, then
(when anything was lost) inform the congestion controller and
retransmit-and-remove each lost packet. -/
def detect_lost_packets (env : LDEnv) (st : LDState)
    (space : QUICPacketNumberSpace) : LDState × List Event :=
  let st0 := { st with loss_time := st.loss_time.set space 0 }
  let delay := lossDelay st0.k_time_threshold st0.rtt.latest_rtt
    st0.rtt.smoothed_rtt st0.rtt.k_granularity
  let lostSendTime := env.now - delay
  let lostPn := lostPnOf (st0.largest_acked_packet.get space) st0.k_packet_threshold
  let scanned := detectScan (st0.largest_acked_packet.get space) lostSendTime lostPn delay
    (st0.sent_packets.get space) 0
  let st1 := { st0 with loss_time := st0.loss_time.set space scanned.1 }
  if scanned.2.isEmpty then (st1, [])
  else
    scanned.2.foldl (lostRemoveStep space)
      (st1, [Event.ccOnPacketsLost (scanned.2.map Prod.fst)])

/-- `QUICLossDetector::_send_packet`: request a padded or plain probe at
the given level and credit the congestion controller. -/
def sendPacketEvents (level : QUICEncryptionLevel) (padded : Bool) : List Event :=
  [if padded then Event.padderRequest level else Event.pingerRequest level,
    Event.ccAddExtraCredit]

/-- The per-space body of `_retransmit_all_unacked_crypto_data`:
retransmit every tracked crypto descriptor of the space, report the set
to the congestion controller, then remove each one. -/
def retransmitCryptoSpace (st : LDState) (space : QUICPacketNumberSpace) :
    LDState × List Event :=
  let cryptos := (st.sent_packets.get space).filter (fun e => e.2.is_crypto_packet)
  let evs := (cryptos.foldl (fun acc e => acc ++ retransmitLostPacketEvents e.2) [])
    ++ [Event.ccOnPacketsLost (cryptos.map Prod.fst)]
  (cryptos.foldl (fun s e => remove_from_sent_packet_list s e.1 space) st, evs)

/-- `QUICLossDetector::_retransmit_all_unacked_crypto_data`: apply the
per-space crypto retransmission to all three spaces in order. -/
def retransmit_all_unacked_crypto_data (st : LDState) : LDState × List Event :=
  let r1 := retransmitCryptoSpace st .Initial
  let r2 := retransmitCryptoSpace r1.1 .Handshake
  let r3 := retransmitCryptoSpace r2.1 .ApplicationData
  (r3.1, r1.2 ++ r2.2 ++ r3.2)

/-- `QUICLossDetector::_on_loss_detection_timeout`: time-threshold loss
detection when some loss time is selected, else crypto retransmission,
else the client anti-deadlock probe, else a PTO probe pair; finally
re-arm the timer. -/
def on_loss_detection_timeout (env : LDEnv) (st : LDState) : LDState × List Event :=
  let res := get_earliest_loss_time st.loss_time
  let step : LDState × List Event :=
    if res.1 ≠ 0 then
      detect_lost_packets env st res.2
    else if st.crypto_outstanding ≠ 0 then
      let r := retransmit_all_unacked_crypto_data st
      ({ r.1 with rtt := { r.1.rtt with crypto_count := r.1.rtt.crypto_count + 1 } }, r.2)
    else if env.client_without_one_rtt_key then
      ({ st with rtt := { st.rtt with crypto_count := st.rtt.crypto_count + 1 } },
        if env.handshake_key_available
          then sendPacketEvents .handshakeLevel false
          else sendPacketEvents .initialLevel true)
    else
      ({ st with rtt := { st.rtt with pto_count := st.rtt.pto_count + 1 } },
        sendPacketEvents .oneRtt false ++ sendPacketEvents .oneRtt false)
  (set_loss_detection_timer env step.1, step.2)

/-- `QUICLossDetector::_on_ack_received`: raise `largest_acked_packet`,
expand the frame and intersect with the table (returning early when
nothing is newly acked), take an RTT sample from the largest-acked
descriptor, process ECN, ack each newly-acked descriptor, run loss
detection, clear the backoff counters and re-arm the timer. -/
def on_ack_received (env : LDEnv) (st : LDState) (space : QUICPacketNumberSpace)
    (frame : QUICAckFrame) : LDState × List Event :=
  let st1 := { st with largest_acked_packet := (st.largest_acked_packet.set space
    (max (st.largest_acked_packet.get space) frame.largest_acknowledged)) }
  let newly := determine_newly_acked_packets (st1.sent_packets.get space) frame
  if newly.isEmpty then (st1, [])
  else
    let pi := tblFind frame.largest_acknowledged (st1.sent_packets.get space)
    let st2 := match pi with
      | some info =>
        if info.ack_eliciting || include_ack_eliciting newly then
          { st1 with rtt := (update_rtt st1.rtt (env.now - info.time_sent)
              (ackDelayToHrtime frame.ack_delay st1.ack_delay_exponent)) }
        else st1
      | none => st1
    let ecnEvs := match pi with
      | some _ => if frame.has_ecn then [Event.ccProcessEcn frame.largest_acknowledged] else []
      | none => []
    let acked := newly.foldl ackedStep (st2, [])
    let lost := detect_lost_packets env acked.1 space
    let st5 := { lost.1 with rtt := { lost.1.rtt with crypto_count := 0, pto_count := 0 } }
    (set_loss_detection_timer env st5, ecnEvs ++ acked.2 ++ lost.2)

/-- `QUICLossDetector::handle_frame` for an ACK frame: dispatch to
`_on_ack_received` and return the (always-null) connection error the
C++ method hands back to its caller. -/
def handle_frame (env : LDEnv) (st : LDState) (space : QUICPacketNumberSpace)
    (frame : QUICAckFrame) : Option Unit × LDState × List Event :=
  (none, on_ack_received env st space frame)

/-- `QUICLossDetector::on_packet_sent`: drop `VERSION_NEGOTIATION`
packets, insert the descriptor into its table, and when the packet is
in flight stamp the last-sent times, notify the congestion controller
and re-arm the timer. -/
def on_packet_sent (env : LDEnv) (st : LDState) (info : QUICPacketInfo)
    (in_flight : Bool) : LDState × List Event :=
  if info.ptype = QUICPacketType.VERSION_NEGOTIATION then (st, [])
  else
    let st1 := add_to_sent_packet_list st info
    if in_flight then
      let st2 := if info.is_crypto_packet
        then { st1 with time_of_last_sent_crypto_packet := info.time_sent } else st1
      let st3 := if info.ack_eliciting
        then { st2 with time_of_last_sent_ack_eliciting_packet := info.time_sent } else st2
      (set_loss_detection_timer env st3, [Event.ccOnPacketSent info.sent_bytes])
    else (st1, [])

/-- `QUICLossDetector::reset`: cancel the timer (the stored alarm target
is left as is), zero the counters, the last-sent times and the per-space
state, clear the tables and reset the `QUICRTTMeasure`. -/
def resetDetector (st : LDState) : LDState :=
  { st with
    timer_scheduled := false
    ack_eliciting_outstanding := 0
    crypto_outstanding := 0
    time_of_last_sent_ack_eliciting_packet := 0
    time_of_last_sent_crypto_packet := 0
    largest_acked_packet := ⟨0, 0, 0⟩
    loss_time := ⟨0, 0, 0⟩
    sent_packets := ⟨[], [], []⟩
    rtt := rttReset st.rtt }

/-- `QUICLossDetector::event_handler` on `EVENT_INTERVAL` (the recurring
25 ms tick): when `loss_detection_alarm_at <= now`, clear the alarm and
invoke `_on_loss_detection_timeout`.  The final component records
whether the timeout handler was invoked. -/
def eventHandlerInterval (env : LDEnv) (st : LDState) :
    LDState × List Event × Bool :=
  if st.loss_detection_alarm_at ≤ env.now then
    let r := on_loss_detection_timeout env { st with loss_detection_alarm_at := 0 }
    (r.1, r.2, true)
  else (st, [], false)

/-!
## Traces of detector operations
-/

/-- The operations of the detector's public contract that mutate its
state: `on_packet_sent`, ACK processing through `handle_frame`, a tick
of the loss-detection timer and `reset`. -/
inductive LDOp where
  | opPacketSent (env : LDEnv) (info : QUICPacketInfo) (in_flight : Bool)
  | opHandleAck (env : LDEnv) (space : QUICPacketNumberSpace) (frame : QUICAckFrame)
  | opTick (env : LDEnv)
  | opReset
deriving DecidableEq

/-- One step of the detector state machine. -/
def ldStep (st : LDState) : LDOp → LDState × List Event
  | .opPacketSent env info in_flight => on_packet_sent env st info in_flight
  | .opHandleAck env space frame => on_ack_received env st space frame
  | .opTick env =>
    let r := eventHandlerInterval env st
    (r.1, r.2.1)
  | .opReset => (resetDetector st, [])

/-- Run a list of operations from a state, keeping the final state. -/
def runTrace (st : LDState) (ops : List LDOp) : LDState :=
  ops.foldl (fun s op => (ldStep s op).1) st

/-- The caller contract of §5 ("descriptors are added in strictly
increasing packet-number order"), weakened to what the counter
invariant needs: a sent packet's number is not already tracked in its
space. -/
def opValidB (st : LDState) : LDOp → Bool
  | .opPacketSent _ info _ =>
    decide (info.ptype = QUICPacketType.VERSION_NEGOTIATION)
      || decide (tblFind info.packet_number (st.sent_packets.get info.pn_space) = none)
  | _ => true

/-- Validity of a whole trace: every operation is valid in the state it
is applied to. -/
def traceValidB (st : LDState) : List LDOp → Bool
  | [] => true
  | op :: rest => opValidB st op && traceValidB (ldStep st op).1 rest

/-- Number of tracked descriptors of a table with `ack_eliciting`. -/
def aeTbl (l : List (Nat × QUICPacketInfo)) : Nat :=
  l.countP (fun e => e.2.ack_eliciting)

/-- Number of tracked descriptors of a table with `is_crypto_packet`. -/
def crTbl (l : List (Nat × QUICPacketInfo)) : Nat :=
  l.countP (fun e => e.2.is_crypto_packet)

/-- Total number of tracked ack-eliciting descriptors across spaces. -/
def aeTotal (st : LDState) : Nat :=
  aeTbl st.sent_packets.initial + aeTbl st.sent_packets.handshake
    + aeTbl st.sent_packets.applicationData

/-- Total number of tracked crypto descriptors across spaces. -/
def crTotal (st : LDState) : Nat :=
  crTbl st.sent_packets.initial + crTbl st.sent_packets.handshake
    + crTbl st.sent_packets.applicationData

/-- The counter invariant of §3 / §8: each shared atomic counter equals
the number of currently tracked descriptors carrying the corresponding
flag, summed across the three spaces. -/
def countersInv (st : LDState) : Prop :=
  st.ack_eliciting_outstanding = aeTotal st ∧ st.crypto_outstanding = crTotal st

instance (st : LDState) : Decidable (countersInv st) := by
  unfold countersInv
  infer_instance

/-!
## Concrete states used by witnesses and counterexamples
-/

/-- A freshly constructed detector (the constructor runs `reset`) with
the documented default configuration: `packet_threshold = 3`,
`time_threshold = 9/8`, a 25 ms granularity and a 100 ms initial RTT
(values in nanoseconds). -/
def baseState : LDState :=
  { largest_acked_packet := ⟨0, 0, 0⟩
    loss_time := ⟨0, 0, 0⟩
    sent_packets := ⟨[], [], []⟩
    ack_eliciting_outstanding := 0
    crypto_outstanding := 0
    time_of_last_sent_ack_eliciting_packet := 0
    time_of_last_sent_crypto_packet := 0
    loss_detection_alarm_at := 0
    timer_scheduled := false
    ack_delay_exponent := 0
    k_packet_threshold := 3
    k_time_threshold := (9 : ℚ) / 8
    rtt :=
      { latest_rtt := 0
        smoothed_rtt := 0
        rttvar := 0
        min_rtt := 0
        max_ack_delay := 25000000
        crypto_count := 0
        pto_count := 0
        k_granularity := 25000000
        k_initial_rtt := 100000000 } }

/-- A server-side environment at `now = 1000` ns. -/
def baseEnv : LDEnv :=
  { now := 1000, client_without_one_rtt_key := false, handshake_key_available := true }


/-- An ACK frame whose range expansion underflows at its first step:
`largest_acknowledged = 5` with `first_ack_block = 7`. -/
def c3Frame : QUICAckFrame :=
  { largest_acknowledged := 5, ack_delay := 0, first_ack_block := 7,
    ack_blocks := [], has_ecn := false }

/-- A detector that has already recorded `largest_acked_packet = 3` in
the application-data space. -/
def c3State : LDState :=
  { baseState with largest_acked_packet := ⟨0, 0, 3⟩ }

/-- A tracked, in-flight, ack-eliciting application-data packet number 0
sent at `t = 1000` ns (the clock instant of `baseEnv`). -/
def c6Packet : QUICPacketInfo :=
  { packet_number := 0, time_sent := 1000, ack_eliciting := true,
    is_crypto_packet := false, in_flight := true, sent_bytes := 1200,
    ptype := .PROTECTED, pn_space := .ApplicationData, frames := [] }

/-- A detector tracking `c6Packet` with `largest_acked_packet = 2` in
the application-data space — below the default `packet_threshold = 3`. -/
def c6State : LDState :=
  { baseState with
    largest_acked_packet := ⟨0, 0, 2⟩
    sent_packets := ⟨[], [], [(0, c6Packet)]⟩
    ack_eliciting_outstanding := 1 }

/-- An RTT measure that already has a smoothed sample and `min_rtt = 0`
(the state every post-first-sample measure is in). -/
def c9Rtt : QUICRTTMeasureState :=
  { baseState.rtt with smoothed_rtt := 10000000, min_rtt := 0 }

/-- An ACK frame acknowledging exactly packet number 5. -/
def c8Frame : QUICAckFrame :=
  { largest_acknowledged := 5, ack_delay := 0, first_ack_block := 0,
    ack_blocks := [], has_ecn := false }

/-- An in-flight crypto, ack-eliciting Initial packet number 1 used by
trace witnesses. -/
def c7Packet : QUICPacketInfo :=
  { packet_number := 1, time_sent := 500, ack_eliciting := true,
    is_crypto_packet := true, in_flight := true, sent_bytes := 900,
    ptype := .INITIAL, pn_space := .Initial, frames := [some 7] }

/-!
## Claim theorems
-/

@[simp]
theorem PerSpace.get_set_same (p : PerSpace α) (s : QUICPacketNumberSpace) (v : α) :
    (p.set s v).get s = v := by
  cases s <;> rfl

theorem PerSpace.get_set_other (p : PerSpace α) (s t : QUICPacketNumberSpace) (v : α)
    (h : s ≠ t) : (p.set s v).get t = p.get t := by
  cases s <;> cases t <;> first | rfl | exact absurd rfl h


/-- C1: the specification requires `_get_earliest_loss_time` to return
the minimum of the non-zero `loss_time` values, but the source condition
`loss_time[i] != 0 && (time != 0 || loss_time[i] < time)` (a slip for
`time == 0 || ...` of the draft-17 pseudocode the file follows) makes it
return 0 when the Initial space's loss time is 0, and the *last* non-zero
loss time — not the minimum — otherwise. -/
theorem c1_get_earliest_loss_time_not_min :
    get_earliest_loss_time ⟨0, 5, 0⟩ = (0, QUICPacketNumberSpace.Initial) ∧
    get_earliest_loss_time ⟨5, 10, 0⟩ = (10, QUICPacketNumberSpace.Handshake) := by
  decide

/-- C2: the loss delay of `_detect_lost_packets` is
`min(time_threshold · max(latest_rtt, smoothed_rtt), k_granularity)` —
the granularity is applied with `min`, exactly as the specification
mandates (and in particular the delay never exceeds the granularity,
which distinguishes it from the IETF pseudocode's `max`). -/
theorem c2_loss_delay_uses_min (th : ℚ) (latest smoothed granularity : ℤ) :
    lossDelay th latest smoothed granularity
      = specLossDelay th latest smoothed granularity ∧
    lossDelay th latest smoothed granularity ≤ granularity :=
  ⟨rfl, min_le_right _ _⟩

/-- C4: `update_rtt` behaves exactly as §4.1 of the specification
describes it: first-sample initialisation when `smoothed_rtt = 0`, and
otherwise the `min_rtt` update, ack-delay clamp, plausibility-gated
subtraction and the truncated fractional smoothing. -/
theorem c4_update_rtt_matches_spec (st : QUICRTTMeasureState) (latest ack_delay : ℤ) :
    update_rtt st latest ack_delay = specUpdateRtt st latest ack_delay := by
  unfold update_rtt specUpdateRtt
  by_cases h : st.smoothed_rtt = 0 <;> simp [h]

/-- C9: once any `update_rtt` call has happened, `min_rtt` is 0 and stays
0 under every further call with a non-negative sample; consequently the
ack-delay plausibility test degenerates to `latest > clamped ack_delay`
(the smoothing then uses `latest - clamped_delay` exactly when
`clamped_delay < latest`). -/
theorem c9_min_rtt_stays_zero (st : QUICRTTMeasureState) (latest ack_delay : ℤ)
    (hl : 0 ≤ latest) (h0 : st.smoothed_rtt = 0 ∨ st.min_rtt = 0) :
    (update_rtt st latest ack_delay).min_rtt = 0 ∧
    (st.smoothed_rtt ≠ 0 →
      (update_rtt st latest ack_delay).smoothed_rtt =
        ratTrunc ((7 : ℚ) / 8 * (st.smoothed_rtt : ℚ) + (1 : ℚ) / 8 *
          (((if min ack_delay st.max_ack_delay < latest
              then latest - min ack_delay st.max_ack_delay else latest) : ℤ) : ℚ))) := by
  by_cases hs : st.smoothed_rtt = 0
  · constructor
    · simp [update_rtt, hs]
    · intro h
      exact absurd hs h
  · have hm : st.min_rtt = 0 := h0.resolve_left hs
    unfold update_rtt
    simp only [hs, hm, if_false]
    constructor
    · simp [min_eq_left hl]
    · intro h
      simp [min_eq_left hl, gt_iff_lt, zero_add]

/-- C9 witness: a concrete post-first-sample state with a concrete
non-negative sample. -/
theorem c9_min_rtt_stays_zero_witness :
    (0 : ℤ) ≤ 20000000 ∧ (update_rtt c9Rtt 20000000 7000000).min_rtt = 0 :=
  ⟨by decide, (c9_min_rtt_stays_zero c9Rtt 20000000 7000000 (by decide) (by decide)).1⟩

/-- C5 counterexample: with the alarm already cleared
(`loss_detection_alarm_at = 0`) a tick at `now = 1000` satisfies the
source guard `loss_detection_alarm_at <= now`, so the tick *does* invoke
`_on_loss_detection_timeout` (here the PTO branch, emitting probe
requests) — contradicting the claim that a tick with a cleared alarm is
a no-op. -/
theorem c5_counterexample_cleared_alarm_fires :
    baseState.loss_detection_alarm_at = 0 ∧
    (eventHandlerInterval baseEnv baseState).2.2 = true ∧
    (eventHandlerInterval baseEnv baseState).2.1 ≠ [] := by
  decide

/-- C5 amended: a tick invokes the timeout handler exactly when
`loss_detection_alarm_at ≤ now`; it is a no-op only when
`now < loss_detection_alarm_at` (a cleared alarm, being 0, fires
immediately — the implementation instead relies on the recurring timer
being cancelled whenever the alarm is cleared). -/
theorem c5_amended_tick_guard (env : LDEnv) (st : LDState) :
    ((eventHandlerInterval env st).2.2 = true ↔
      st.loss_detection_alarm_at ≤ env.now) ∧
    (env.now < st.loss_detection_alarm_at →
      eventHandlerInterval env st = (st, [], false)) := by
  constructor
  · unfold eventHandlerInterval
    by_cases h : st.loss_detection_alarm_at ≤ env.now <;> simp [h]
  · intro hlt
    unfold eventHandlerInterval
    rw [if_neg (not_le.mpr hlt)]

/-- C5 witness: a tick strictly before a pending alarm is a no-op. -/
theorem c5_amended_tick_guard_witness :
    (1000 : ℤ) < 2000 ∧
    eventHandlerInterval baseEnv { baseState with loss_detection_alarm_at := 2000 }
      = ({ baseState with loss_detection_alarm_at := 2000 }, [], false) :=
  ⟨by decide,
    (c5_amended_tick_guard baseEnv { baseState with loss_detection_alarm_at := 2000 }).2
      (by decide)⟩

/-- With both RTT samples still zero the loss delay evaluates to 0 for
any non-negative granularity (used to evaluate `detect_lost_packets` on
concrete states, since the `ℚ` multiplication does not reduce in the
kernel). -/
theorem lossDelay_zero_rtt (th : ℚ) (g : ℤ) (hg : 0 ≤ g) :
    lossDelay th 0 0 g = 0 := by
  unfold lossDelay ratTrunc
  simp [min_eq_left hg]

/-- C6 counterexample: with `packet_threshold = 3` and
`largest_acked_packet = 2` (so `largest < threshold`), the `uint64_t`
subtraction wraps to `2^64 - 1`, and the tracked packet number 0 —
sent at the very instant of the scan, hence not time-lost — is
declared lost purely by the wrapped packet-number cutoff and removed. -/
theorem c6_counterexample_lost_pn_wraps :
    lostPnOf 2 3 = U64 - 1 ∧
    (detect_lost_packets baseEnv c6State .ApplicationData).1.sent_packets.applicationData
      = [] ∧
    (detect_lost_packets baseEnv c6State .ApplicationData).2 =
      [Event.ccOnPacketsLost [0], Event.triggerPacketLost 0] := by
  have hdelay : lossDelay c6State.k_time_threshold c6State.rtt.latest_rtt
      c6State.rtt.smoothed_rtt c6State.rtt.k_granularity = 0 := by
    show lossDelay ((9 : ℚ) / 8) 0 0 25000000 = 0
    exact lossDelay_zero_rtt _ _ (by decide)
  refine ⟨by decide, ?_, ?_⟩ <;>
  · unfold detect_lost_packets
    dsimp only
    rw [hdelay]
    decide

/-- C6 amended: the cutoff `lost_pn = largest_acked_packet − packet_threshold`
does not wrap precisely when `packet_threshold ≤ largest_acked_packet`
(for any in-range `uint64_t` value; in particular `threshold = 0`,
`largest = 0` yields 0); when `largest < threshold` the subtraction
wraps modulo 2^64. -/
theorem c6_amended_lost_pn_no_wrap (largest threshold : Nat)
    (hl : largest < U64) (ht : threshold ≤ largest) :
    lostPnOf largest threshold = largest - threshold := by
  unfold lostPnOf wsub64 U64 at *
  have h1 : largest % 18446744073709551616 = largest := Nat.mod_eq_of_lt hl
  have h2 : threshold % 18446744073709551616 = threshold :=
    Nat.mod_eq_of_lt (lt_of_le_of_lt ht hl)
  rw [h1, h2]
  have h3 : largest + (18446744073709551616 - threshold) =
      (largest - threshold) + 18446744073709551616 := by omega
  rw [h3, Nat.add_mod_right, Nat.mod_eq_of_lt (by omega)]

/-- C6 witness: the boundary case the specification calls out,
`packet_threshold = 0` with `largest_acked_packet = 0`. -/
theorem c6_amended_lost_pn_no_wrap_witness :
    (0 : Nat) < U64 ∧ lostPnOf 0 0 = 0 :=
  ⟨by decide, c6_amended_lost_pn_no_wrap 0 0 (by decide) (by decide)⟩

/-- C3 counterexample: the ACK frame `c3Frame` underflows at its first
expansion step (`largest_acknowledged = 5 < 7 = first_ack_block`), yet
`handle_frame` surfaces no error (it always returns a null error) and
detector state *is* mutated: `largest_acked_packet` of the space rises
from 3 to 5 before the expansion is even consulted. -/
theorem c3_counterexample_underflow_not_rejected :
    c3Frame.largest_acknowledged < c3Frame.first_ack_block ∧
    (handle_frame baseEnv c3State .ApplicationData c3Frame).1 = none ∧
    (handle_frame baseEnv c3State .ApplicationData c3Frame).2.1.largest_acked_packet.applicationData
      = 5 := by
  decide

/-!
## Preservation of `largest_acked_packet` by the individual operations
-/

theorem decrement_largest (st : LDState) (o : Option QUICPacketInfo) :
    (decrement_outstanding_counters st o).largest_acked_packet
      = st.largest_acked_packet := by
  cases o with
  | none => rfl
  | some info =>
    unfold decrement_outstanding_counters
    by_cases h1 : info.is_crypto_packet <;> by_cases h2 : info.ack_eliciting <;>
      simp [h1, h2]

theorem remove_largest (st : LDState) (pn : Nat) (sp : QUICPacketNumberSpace) :
    (remove_from_sent_packet_list st pn sp).largest_acked_packet
      = st.largest_acked_packet := by
  unfold remove_from_sent_packet_list
  dsimp only
  rw [decrement_largest]

theorem on_packet_acked_largest (st : LDState) (info : QUICPacketInfo) :
    (on_packet_acked st info).1.largest_acked_packet = st.largest_acked_packet := by
  unfold on_packet_acked
  dsimp only
  rw [remove_largest]

theorem ackedStep_fold_largest (l : List QUICPacketInfo) (acc : LDState × List Event) :
    (l.foldl ackedStep acc).1.largest_acked_packet = acc.1.largest_acked_packet := by
  induction l generalizing acc with
  | nil => rfl
  | cons a t ih =>
    rw [List.foldl_cons, ih]
    unfold ackedStep
    dsimp only
    rw [on_packet_acked_largest]

theorem lostRemoveStep_fold_largest (sp : QUICPacketNumberSpace)
    (l : List (Nat × QUICPacketInfo)) (acc : LDState × List Event) :
    (l.foldl (lostRemoveStep sp) acc).1.largest_acked_packet
      = acc.1.largest_acked_packet := by
  induction l generalizing acc with
  | nil => rfl
  | cons a t ih =>
    rw [List.foldl_cons, ih]
    unfold lostRemoveStep
    dsimp only
    rw [remove_largest]

theorem remove_fold_largest (sp : QUICPacketNumberSpace)
    (l : List (Nat × QUICPacketInfo)) (st : LDState) :
    (l.foldl (fun s e => remove_from_sent_packet_list s e.1 sp) st).largest_acked_packet
      = st.largest_acked_packet := by
  induction l generalizing st with
  | nil => rfl
  | cons a t ih => rw [List.foldl_cons, ih, remove_largest]

theorem set_timer_largest (env : LDEnv) (st : LDState) :
    (set_loss_detection_timer env st).largest_acked_packet
      = st.largest_acked_packet := by
  unfold set_loss_detection_timer
  dsimp only
  repeat' split
  all_goals rfl

theorem detect_largest (env : LDEnv) (st : LDState) (sp : QUICPacketNumberSpace) :
    (detect_lost_packets env st sp).1.largest_acked_packet
      = st.largest_acked_packet := by
  unfold detect_lost_packets
  dsimp only
  split
  · rfl
  · rw [lostRemoveStep_fold_largest]

theorem retransmitCryptoSpace_largest (st : LDState) (sp : QUICPacketNumberSpace) :
    (retransmitCryptoSpace st sp).1.largest_acked_packet = st.largest_acked_packet := by
  unfold retransmitCryptoSpace
  dsimp only
  rw [remove_fold_largest]

theorem retransmit_all_largest (st : LDState) :
    (retransmit_all_unacked_crypto_data st).1.largest_acked_packet
      = st.largest_acked_packet := by
  unfold retransmit_all_unacked_crypto_data
  dsimp only
  rw [retransmitCryptoSpace_largest, retransmitCryptoSpace_largest,
    retransmitCryptoSpace_largest]

theorem timeout_largest (env : LDEnv) (st : LDState) :
    (on_loss_detection_timeout env st).1.largest_acked_packet
      = st.largest_acked_packet := by
  unfold on_loss_detection_timeout
  dsimp only
  rw [set_timer_largest]
  split
  · rw [detect_largest]
  · split
    · dsimp only
      rw [retransmit_all_largest]
    · split <;> rfl

theorem on_ack_largest (env : LDEnv) (st : LDState) (sp : QUICPacketNumberSpace)
    (frame : QUICAckFrame) :
    (on_ack_received env st sp frame).1.largest_acked_packet
      = st.largest_acked_packet.set sp
          (max (st.largest_acked_packet.get sp) frame.largest_acknowledged) := by
  unfold on_ack_received
  dsimp only
  split
  · rfl
  · rw [set_timer_largest]
    dsimp only
    rw [detect_largest, ackedStep_fold_largest]
    dsimp only
    split
    · split <;> rfl
    · rfl

theorem add_largest (st : LDState) (info : QUICPacketInfo) :
    (add_to_sent_packet_list st info).largest_acked_packet
      = st.largest_acked_packet := by
  unfold add_to_sent_packet_list
  dsimp only
  split
  · rfl
  · repeat' split
    all_goals rfl

theorem on_packet_sent_largest (env : LDEnv) (st : LDState) (info : QUICPacketInfo)
    (in_flight : Bool) :
    (on_packet_sent env st info in_flight).1.largest_acked_packet
      = st.largest_acked_packet := by
  unfold on_packet_sent
  split
  · rfl
  · dsimp only
    split
    · rw [set_timer_largest]
      repeat' split
      all_goals simp only [add_largest]
    · simp only [add_largest]

theorem tick_largest (env : LDEnv) (st : LDState) :
    (eventHandlerInterval env st).1.largest_acked_packet
      = st.largest_acked_packet := by
  unfold eventHandlerInterval
  split
  · dsimp only
    rw [timeout_largest]
  · rfl

/-- C3 amended: the range expansion of `_determine_newly_acked_packets`
is performed in wrapping `uint64_t` arithmetic; an underflowing ACK is
not rejected — `handle_frame` always hands a null error back to its
caller — and detector state is still mutated:
`largest_acked_packet[space]` is raised to
`max(existing, largest_acknowledged)` before the expansion is consulted,
for every ACK frame. -/
theorem c3_amended_wrapping_expansion_no_error (env : LDEnv) (st : LDState)
    (space : QUICPacketNumberSpace) (frame : QUICAckFrame) :
    (handle_frame env st space frame).1 = none ∧
    (handle_frame env st space frame).2.1.largest_acked_packet.get space =
      max (st.largest_acked_packet.get space) frame.largest_acknowledged := by
  constructor
  · rfl
  · show (on_ack_received env st space frame).1.largest_acked_packet.get space = _
    rw [on_ack_largest, PerSpace.get_set_same]

/-- C8 counterexample: an ACK with `largest_acknowledged = 5` raises
`largest_acked_packet[ApplicationData]` to 5, after which the public
`reset` operation drops it back to 0 — so over a trace that contains a
`reset`, `largest_acked_packet` is not monotonically non-decreasing. -/
theorem c8_counterexample_reset_decreases :
    (runTrace baseState [LDOp.opHandleAck baseEnv .ApplicationData c8Frame]).largest_acked_packet.applicationData = 5 ∧
    (runTrace baseState [LDOp.opHandleAck baseEnv .ApplicationData c8Frame,
      LDOp.opReset]).largest_acked_packet.applicationData = 0 ∧
    ¬ ((runTrace baseState [LDOp.opHandleAck baseEnv .ApplicationData c8Frame]).largest_acked_packet.applicationData ≤
      (runTrace baseState [LDOp.opHandleAck baseEnv .ApplicationData c8Frame,
        LDOp.opReset]).largest_acked_packet.applicationData) := by
  decide

/-- C8 amended: `largest_acked_packet[space]` starts at 0 and is
monotonically non-decreasing under every `on_packet_sent`, ACK and
timer-tick operation (an ACK sets it to the max of its current value and
the frame's `largest_acknowledged`); the public `reset` operation,
however, re-initialises it to 0, so monotonicity holds only between
resets. -/
theorem c8_amended_monotone (st : LDState) (op : LDOp) (h : op ≠ LDOp.opReset)
    (sp : QUICPacketNumberSpace) :
    st.largest_acked_packet.get sp ≤ (ldStep st op).1.largest_acked_packet.get sp := by
  cases op with
  | opPacketSent env info in_flight =>
    show st.largest_acked_packet.get sp
      ≤ (on_packet_sent env st info in_flight).1.largest_acked_packet.get sp
    rw [on_packet_sent_largest]
  | opHandleAck env sp2 frame =>
    show st.largest_acked_packet.get sp
      ≤ (on_ack_received env st sp2 frame).1.largest_acked_packet.get sp
    rw [on_ack_largest]
    by_cases hsp : sp2 = sp
    · subst hsp
      rw [PerSpace.get_set_same]
      exact le_max_left _ _
    · rw [PerSpace.get_set_other _ _ _ _ hsp]
  | opTick env =>
    show st.largest_acked_packet.get sp
      ≤ (eventHandlerInterval env st).1.largest_acked_packet.get sp
    rw [tick_largest]
  | opReset => exact absurd rfl h

/-- C8 witness: an ACK-processing operation is not `reset`, and
monotonicity holds at it. -/
theorem c8_amended_monotone_witness :
    LDOp.opHandleAck baseEnv .ApplicationData c8Frame ≠ LDOp.opReset ∧
    baseState.largest_acked_packet.get .ApplicationData ≤
      (ldStep baseState (LDOp.opHandleAck baseEnv .ApplicationData c8Frame)).1.largest_acked_packet.get .ApplicationData :=
  ⟨by decide,
    c8_amended_monotone baseState (LDOp.opHandleAck baseEnv .ApplicationData c8Frame)
      (by decide) .ApplicationData⟩

/-!
## Table-level counting lemmas
-/

theorem tblErase_of_find_none (pn : Nat) (l : List (Nat × QUICPacketInfo))
    (h : tblFind pn l = none) : tblErase pn l = l := by
  induction l with
  | nil => rfl
  | cons e t ih =>
    simp only [tblFind] at h
    by_cases he : e.1 = pn
    · simp [he] at h
    · simp only [he, ite_false, if_false] at h
      simp only [tblErase, he, ite_false, if_false]
      rw [ih h]

theorem countP_erase_find (p : Nat × QUICPacketInfo → Bool) (pn : Nat)
    (l : List (Nat × QUICPacketInfo)) :
    l.countP p = (tblErase pn l).countP p +
      (match tblFind pn l with
       | some i => if p (pn, i) then 1 else 0
       | none => 0) := by
  induction l with
  | nil => simp [tblFind, tblErase]
  | cons e t ih =>
    by_cases he : e.1 = pn
    · obtain ⟨e1, e2⟩ := e
      subst he
      simp [tblFind, tblErase, List.countP_cons, Nat.add_comm]
    · cases hf : tblFind pn t with
      | none =>
        simp only [tblFind, tblErase, he, ite_false, if_false, hf] at ih ⊢
        simp only [List.countP_cons, ih]
        omega
      | some i =>
        simp only [tblFind, tblErase, he, ite_false, if_false, hf] at ih ⊢
        simp only [List.countP_cons, ih]
        omega

theorem tblFind_insert_fresh (pn : Nat) (info : QUICPacketInfo)
    (l : List (Nat × QUICPacketInfo)) (h : tblFind pn l = none) :
    tblFind pn (tblInsert pn info l) = some info := by
  induction l with
  | nil => simp [tblInsert, tblFind]
  | cons e t ih =>
    simp only [tblFind] at h
    by_cases he : e.1 = pn
    · simp [he] at h
    · simp only [he, ite_false, if_false] at h
      unfold tblInsert
      by_cases hlt : pn < e.1
      · simp [hlt, tblFind]
      · have hne : ¬pn = e.1 := fun hh => he hh.symm
        simp [hlt, hne, tblFind, he, ih h]

theorem countP_insert_fresh (p : Nat × QUICPacketInfo → Bool) (pn : Nat)
    (info : QUICPacketInfo) (l : List (Nat × QUICPacketInfo))
    (h : tblFind pn l = none) :
    (tblInsert pn info l).countP p = l.countP p + (if p (pn, info) then 1 else 0) := by
  induction l with
  | nil => simp [tblInsert, List.countP_cons]
  | cons e t ih =>
    simp only [tblFind] at h
    by_cases he : e.1 = pn
    · simp [he] at h
    · simp only [he, ite_false, if_false] at h
      unfold tblInsert
      by_cases hlt : pn < e.1
      · rw [if_pos hlt]
        simp only [List.countP_cons]
      · have hne : ¬pn = e.1 := fun hh => he hh.symm
        rw [if_neg hlt, if_neg hne]
        simp only [List.countP_cons, ih h]
        omega

/-!
## Preservation of the counter invariant by the individual operations
-/

theorem remove_inv (st : LDState) (pn : Nat) (sp : QUICPacketNumberSpace)
    (h : countersInv st) : countersInv (remove_from_sent_packet_list st pn sp) := by
  obtain ⟨hae, hcr⟩ := h
  unfold aeTotal at hae
  unfold crTotal at hcr
  unfold countersInv aeTotal crTotal
  unfold remove_from_sent_packet_list decrement_outstanding_counters
  dsimp only
  have hA := countP_erase_find (fun e => e.2.ack_eliciting) pn (st.sent_packets.get sp)
  have hC := countP_erase_find (fun e => e.2.is_crypto_packet) pn (st.sent_packets.get sp)
  cases hf : tblFind pn (st.sent_packets.get sp) with
  | none =>
    rw [hf] at hA hC
    rw [tblErase_of_find_none pn _ hf]
    cases sp <;>
      simp only [aeTbl, crTbl, PerSpace.get, PerSpace.set] at hA hC hae hcr ⊢ <;>
      exact ⟨hae, hcr⟩
  | some info =>
    rw [hf] at hA hC
    obtain ⟨pn2, ts2, ae2, cr2, fl2, sb2, pt2, sp2, fr2⟩ := info
    cases sp <;> cases ae2 <;> cases cr2 <;>
      simp only [aeTbl, crTbl, PerSpace.get, PerSpace.set, Bool.false_eq_true,
        if_true, if_false, ite_true, ite_false, reduceIte] at hA hC hae hcr ⊢ <;>
      omega

theorem add_inv (st : LDState) (info : QUICPacketInfo)
    (hf : tblFind info.packet_number (st.sent_packets.get info.pn_space) = none)
    (h : countersInv st) : countersInv (add_to_sent_packet_list st info) := by
  obtain ⟨hae, hcr⟩ := h
  obtain ⟨pn2, ts2, ae2, cr2, fl2, sb2, pt2, sp2, fr2⟩ := info
  dsimp only at hf
  unfold aeTotal at hae
  unfold crTotal at hcr
  unfold countersInv aeTotal crTotal
  unfold add_to_sent_packet_list
  dsimp only
  have hA := countP_insert_fresh (fun e => e.2.ack_eliciting) pn2
    ⟨pn2, ts2, ae2, cr2, fl2, sb2, pt2, sp2, fr2⟩ _ hf
  have hC := countP_insert_fresh (fun e => e.2.is_crypto_packet) pn2
    ⟨pn2, ts2, ae2, cr2, fl2, sb2, pt2, sp2, fr2⟩ _ hf
  rw [tblFind_insert_fresh _ _ _ hf]
  cases sp2 <;> cases ae2 <;> cases cr2 <;>
    simp only [aeTbl, crTbl, PerSpace.get, PerSpace.set, Bool.false_eq_true,
      if_true, if_false, ite_true, ite_false, reduceIte] at hA hC hae hcr ⊢ <;>
    omega

theorem set_timer_inv (env : LDEnv) (st : LDState) (h : countersInv st) :
    countersInv (set_loss_detection_timer env st) := by
  unfold set_loss_detection_timer
  dsimp only
  repeat' split
  all_goals exact h

theorem reset_inv (st : LDState) : countersInv (resetDetector st) :=
  ⟨rfl, rfl⟩

theorem lostRemoveStep_fold_inv (sp : QUICPacketNumberSpace)
    (l : List (Nat × QUICPacketInfo)) (acc : LDState × List Event)
    (h : countersInv acc.1) : countersInv (l.foldl (lostRemoveStep sp) acc).1 := by
  induction l generalizing acc with
  | nil => exact h
  | cons a t ih =>
    rw [List.foldl_cons]
    exact ih _ (remove_inv _ _ _ h)

theorem remove_fold_inv (sp : QUICPacketNumberSpace)
    (l : List (Nat × QUICPacketInfo)) (st : LDState) (h : countersInv st) :
    countersInv (l.foldl (fun s e => remove_from_sent_packet_list s e.1 sp) st) := by
  induction l generalizing st with
  | nil => exact h
  | cons a t ih =>
    rw [List.foldl_cons]
    exact ih _ (remove_inv _ _ _ h)

theorem ackedStep_fold_inv (l : List QUICPacketInfo) (acc : LDState × List Event)
    (h : countersInv acc.1) : countersInv (l.foldl ackedStep acc).1 := by
  induction l generalizing acc with
  | nil => exact h
  | cons a t ih =>
    rw [List.foldl_cons]
    exact ih _ (remove_inv _ _ _ h)

theorem detect_inv (env : LDEnv) (st : LDState) (sp : QUICPacketNumberSpace)
    (h : countersInv st) : countersInv (detect_lost_packets env st sp).1 := by
  unfold detect_lost_packets
  dsimp only
  split
  · exact h
  · exact lostRemoveStep_fold_inv _ _ _ h

theorem retransmit_all_inv (st : LDState) (h : countersInv st) :
    countersInv (retransmit_all_unacked_crypto_data st).1 := by
  unfold retransmit_all_unacked_crypto_data retransmitCryptoSpace
  dsimp only
  exact remove_fold_inv _ _ _ (remove_fold_inv _ _ _ (remove_fold_inv _ _ _ h))

theorem timeout_inv (env : LDEnv) (st : LDState) (h : countersInv st) :
    countersInv (on_loss_detection_timeout env st).1 := by
  unfold on_loss_detection_timeout
  dsimp only
  apply set_timer_inv
  split
  · exact detect_inv _ _ _ h
  · split
    · exact retransmit_all_inv _ h
    · split <;> exact h

theorem on_ack_inv (env : LDEnv) (st : LDState) (sp : QUICPacketNumberSpace)
    (frame : QUICAckFrame) (h : countersInv st) :
    countersInv (on_ack_received env st sp frame).1 := by
  unfold on_ack_received
  dsimp only
  split
  · exact h
  · apply set_timer_inv
    refine detect_inv env _ sp (ackedStep_fold_inv _ _ ?_)
    dsimp only
    split
    · split
      · exact h
      · exact h
    · exact h

theorem on_packet_sent_inv (env : LDEnv) (st : LDState) (info : QUICPacketInfo)
    (in_flight : Bool)
    (hfresh : info.ptype = QUICPacketType.VERSION_NEGOTIATION ∨
      tblFind info.packet_number (st.sent_packets.get info.pn_space) = none)
    (h : countersInv st) : countersInv (on_packet_sent env st info in_flight).1 := by
  unfold on_packet_sent
  split
  · exact h
  · rename_i hvn
    have hf := hfresh.resolve_left hvn
    dsimp only
    split
    · apply set_timer_inv
      repeat' split
      all_goals exact add_inv _ _ hf h
    · exact add_inv _ _ hf h

theorem tick_inv (env : LDEnv) (st : LDState) (h : countersInv st) :
    countersInv (eventHandlerInterval env st).1 := by
  unfold eventHandlerInterval
  split
  · exact timeout_inv _ _ h
  · exact h

theorem ldStep_inv (st : LDState) (op : LDOp) (hv : opValidB st op = true)
    (h : countersInv st) : countersInv (ldStep st op).1 := by
  cases op with
  | opPacketSent env info in_flight =>
    refine on_packet_sent_inv env st info in_flight ?_ h
    simpa [opValidB] using hv
  | opHandleAck env sp frame => exact on_ack_inv env st sp frame h
  | opTick env => exact tick_inv env st h
  | opReset => exact reset_inv st

/-- C7: at every observable point of every valid trace of operations
(`on_packet_sent` with fresh packet numbers — the caller contract of §5 —
ACK processing, timer ticks with everything they trigger, and `reset`),
`ack_eliciting_outstanding` equals the number of tracked descriptors with
`ack_eliciting = true` and `crypto_outstanding` the number with
`is_crypto_packet = true`, summed across the three spaces. -/
theorem c7_counters_invariant (st : LDState) (ops : List LDOp)
    (hv : traceValidB st ops = true) (h : countersInv st) :
    countersInv (runTrace st ops) := by
  induction ops generalizing st with
  | nil => exact h
  | cons op rest ih =>
    simp only [traceValidB, Bool.and_eq_true] at hv
    exact ih _ hv.2 (ldStep_inv st op hv.1 h)

/-- C7 witness: a concrete valid trace — sending an in-flight crypto
ack-eliciting Initial packet, a timer tick and a reset — and the counter
invariant at its observable points. -/
theorem c7_counters_invariant_witness :
    traceValidB baseState
      [LDOp.opPacketSent baseEnv c7Packet true, LDOp.opReset] = true ∧
    countersInv baseState ∧
    countersInv (runTrace baseState
      [LDOp.opPacketSent baseEnv c7Packet true, LDOp.opReset]) :=
  ⟨by decide, by decide,
    c7_counters_invariant baseState
      [LDOp.opPacketSent baseEnv c7Packet true, LDOp.opReset]
      (by decide) (by decide)⟩

/-- C10: when the expansion of an incoming ACK frame intersected with the
sent-packet table is empty, `_on_ack_received` still raises
`largest_acked_packet[space]` to `max(existing, largest_acknowledged)`
and changes nothing else: no RTT update, no collaborator callback, no
loss detection, no `crypto_count`/`pto_count` reset and no timer
re-arming. -/
theorem c10_empty_newly_acked_only_largest (env : LDEnv) (st : LDState)
    (space : QUICPacketNumberSpace) (frame : QUICAckFrame)
    (h : determine_newly_acked_packets (st.sent_packets.get space) frame = []) :
    on_ack_received env st space frame =
      ({ st with largest_acked_packet := (st.largest_acked_packet.set space
          (max (st.largest_acked_packet.get space) frame.largest_acknowledged)) }, []) := by
  unfold on_ack_received
  dsimp only
  rw [h]
  rfl

/-- C10 witness: an ACK for packet 5 against an empty table. -/
theorem c10_empty_newly_acked_only_largest_witness :
    determine_newly_acked_packets (baseState.sent_packets.get .ApplicationData) c8Frame
      = [] ∧
    on_ack_received baseEnv baseState .ApplicationData c8Frame =
      ({ baseState with largest_acked_packet := (baseState.largest_acked_packet.set
          .ApplicationData (max (baseState.largest_acked_packet.get .ApplicationData)
            c8Frame.largest_acknowledged)) }, []) :=
  ⟨by decide,
    c10_empty_newly_acked_only_largest baseEnv baseState .ApplicationData c8Frame
      (by decide)⟩

end QUICLD
